import Mathlib

/-!
Shallow embedding of the go-routine-concurrency-stress repository.

The repository is a Go HTTP lab exposing four request-composition
strategies over two simulated dependencies:

* `Sync` (src/unnamed/part_003, Handlers.Sync): call A, then B, sequentially.
* `Async` (Handlers.Async): fan out A and B, fan in over a select loop.
* `AsyncLimited` (Handlers.AsyncLimited): like Async but the B goroutine
  first acquires a slot on the buffered channel `SemB` (the Bounded Gate).
* `AsyncTimeout` (Handlers.AsyncTimeout): like Async under a
  `context.WithTimeout` deadline.

Random draws (`rand.Float64`, `rand.Intn`) are modelled as explicit oracle
inputs; deadlines as absolute instants / remaining budgets; and the
nondeterministic `select` fan-in as an explicit list of arrival events,
one list element per select round, in the order the scheduler chose.
-/

namespace GoRoutineStress

/-! ### Data model (src/unnamed/part_002 services section, src/services.go) -/

/-- Payload returned by Service A (`ServiceAData` in the Go source). -/
structure ServiceAData where
  value : String
  sleepMs : Nat
  deriving DecidableEq, Repr

/-- Payload returned by Service B (`ServiceBData` in the Go source). -/
structure ServiceBData where
  value : String
  sleepMs : Nat
  deriving DecidableEq, Repr

/-- Errors a service call can surface: the simulated Service B failure
(`errors.New("service B simulated failure")`) or a context error
(`ctx.Err()`, either `context.DeadlineExceeded` or `context.Canceled`). -/
inductive SvcErr where
  | simulated
  | ctxDeadlineExceeded
  | ctxCanceled
  deriving DecidableEq, Repr

/-- True exactly for the context (cancellation) errors. -/
def SvcErr.isCtx : SvcErr → Bool
  | .simulated => false
  | .ctxDeadlineExceeded => true
  | .ctxCanceled => true

/-! ### Service B (src/services.go lines 57-81)

`rand.Intn n` returns a uniform value in `[0, n)`; we model the draw by an
oracle natural `draw` reduced modulo `n`.  `rand.Float64` returns a value
in `[0, 1)`; we model it as a rational oracle `u`.  The remaining time
until the supplied context deadline at entry is `rem` (`none` = no
deadline).  The `select` between `time.After ms` and `ctx.Done` completes
normally when `ms < rem`, cancels when `rem < ms`, and on an exact tie the
winner is the scheduler's choice, modelled by the oracle `tie`. -/

/-- Model of `rand.Intn`: the oracle draw reduced into `[0, n)`. -/
def Intn (n : Nat) (draw : Nat) : Nat := draw % n

/-- Model of `randRange(min, max) = min + rand.Intn(max-min+1)`. -/
def randRange (mn mx : Nat) (draw : Nat) : Nat := mn + Intn (mx - mn + 1) draw

/-- Error probability threshold used by Service B (`rand.Float64() < 0.05`). -/
def pErr : ℚ := 5 / 100

/-- Terminal result of one Service B call. -/
inductive BResult where
  | failure
  | cancelled
  | success (d : ServiceBData)
  deriving DecidableEq, Repr

/-- Model of `Services.ServiceB`, returning the result together with the
elapsed time in milliseconds.  Faithful to the Go control flow: the 5%
error draw is evaluated first, before any deadline interaction; otherwise
the call sleeps `randRange 300 1200` against the deadline. -/
def ServiceB (u : ℚ) (draw : Nat) (rem : Option Nat) (tie : Bool) :
    BResult × Nat :=
  if u < pErr then (.failure, 0)
  else
    let ms := randRange 300 1200 draw
    match rem with
    | none => (.success ⟨"data-from-B", ms⟩, ms)
    | some rm =>
      if ms < rm then (.success ⟨"data-from-B", ms⟩, ms)
      else if rm < ms then (.cancelled, rm)
      else if tie then (.success ⟨"data-from-B", ms⟩, ms)
      else (.cancelled, rm)

/-! ### Sequential strategy (src/unnamed/part_003, Handlers.Sync)

The handler calls `callServiceA`; on error it responds 408 and returns
before `callServiceB` is ever reached; otherwise it calls `callServiceB`
and responds 503 on error or 200 with the combined payload.  The result
of each call is supplied as an `Except`; the `bCalled` flag records
whether control reached the `callServiceB` line. -/

/-- Result of one service call as carried on the handler's channels:
Go's `(data, err)` pair with exactly one side meaningful. -/
abbrev ARes := Except SvcErr ServiceAData

/-- Result of a Service B call as carried on `bCh`. -/
abbrev BRes := Except SvcErr ServiceBData

/-- Caller-visible response of the Sync handler. -/
inductive SyncResp where
  | combined (mode : String) (a : ServiceAData) (b : ServiceBData)
  | errResp (status : Nat) (mode : String) (e : SvcErr)
  deriving DecidableEq, Repr

/-- Output of one Sync invocation: the response plus whether the
`callServiceB` line executed. -/
structure SyncOut where
  resp : SyncResp
  bCalled : Bool
  deriving DecidableEq, Repr

/-- Model of `Handlers.Sync`: A first; on A-error respond 408 and return
(B never invoked); otherwise invoke B and report its outcome. -/
def Sync (ra : ARes) (rb : BRes) : SyncOut :=
  match ra with
  | .error eA => ⟨.errResp 408 "sync" eA, false⟩
  | .ok a =>
    match rb with
    | .error eB => ⟨.errResp 503 "sync" eB, true⟩
    | .ok b => ⟨.combined "sync" a b, true⟩

/-! ### Fan-in merge loop (Handlers.Async / AsyncLimited / AsyncTimeout)

All three concurrent handlers run the same loop:

  for not (gotA and gotB):
    select over: aCh receive, bCh receive, ctx.Done

One `FanEv` per select round, in scheduler order.  An exhausted event
list with the loop still waiting models a select with no ready channel:
the goroutine is blocked. -/

deriving instance DecidableEq for Except

/-- One select-round outcome in the fan-in loop. -/
inductive FanEv where
  | fromA (r : ARes)
  | fromB (r : BRes)
  | ctxFired (e : SvcErr)
  deriving DecidableEq, Repr

/-- Terminal state of the fan-in merge loop. -/
inductive LoopResult where
  | merged (a : ServiceAData) (b : ServiceBData)
  | depFailure (eA : Option SvcErr) (eB : Option SvcErr)
  | cancelled (e : SvcErr)
  | blocked
  deriving DecidableEq, Repr

/-- The error component of a Go `(data, err)` pair. -/
def errOf {α : Type} : Except SvcErr α → Option SvcErr
  | .ok _ => none
  | .error e => some e

/-- Post-loop merge of the two received results (`if eA != nil || eB != nil`
respond 503 carrying both, else 200 with both payloads). -/
def finalize (ra : ARes) (rb : BRes) : LoopResult :=
  match ra, rb with
  | .ok a, .ok b => .merged a b
  | ra, rb => .depFailure (errOf ra) (errOf rb)

/-- Model of the fan-in loop: the loop guard exits once both results are
present; otherwise the next ready event is consumed; `ctx.Done` responds
408 and returns immediately. -/
def fanInLoop : Option ARes → Option BRes → List FanEv → LoopResult
  | some ra, some rb, _ => finalize ra rb
  | _, _, [] => .blocked
  | _, sB, .fromA r :: evs => fanInLoop (some r) sB evs
  | sA, _, .fromB r :: evs => fanInLoop sA (some r) evs
  | _, _, .ctxFired e :: _ => .cancelled e

/-- HTTP status the handler responds with for a loop result (`200` JSON,
`503` ServiceUnavailable, `408` RequestTimeout); a blocked loop never
responds. -/
def statusOf : LoopResult → Option Nat
  | .merged _ _ => some 200
  | .depFailure _ _ => some 503
  | .cancelled _ => some 408
  | .blocked => none

/-! ### Bounded Gate (the `SemB` buffered channel, Handlers.AsyncLimited)

`SemB` is `make(chan struct\x7b\x7d, cap)`.  Acquire is a channel send:
it can only complete while the buffer holds fewer than `cap` tokens,
incrementing occupancy.  Release is a receive: it can only complete
while occupancy is positive, decrementing it.  A trace is the global
interleaving of completed sends/receives; a step that is not enabled
cannot occur, so `gateRun` rejects such traces with `none`. -/

/-- A completed Bounded Gate operation. -/
inductive GateEv where
  | acquire
  | release
  deriving DecidableEq, Repr

/-- One enabled step of the `SemB` channel: send blocks while full,
receive blocks while empty. -/
def gateStep (cap : Nat) (occ : Int) : GateEv → Option Int
  | .acquire => if occ < (cap : Int) then some (occ + 1) else none
  | .release => if 0 < occ then some (occ - 1) else none

/-- Run a trace of completed gate operations from occupancy `occ`. -/
def gateRun (cap : Nat) (occ : Int) : List GateEv → Option Int
  | [] => some occ
  | ev :: t =>
    match gateStep cap occ ev with
    | some occ2 => gateRun cap occ2 t
    | none => none

/-- Output of the AsyncLimited B-goroutine: the gate operations it
performed and the message it sent on `bCh`. -/
structure BTaskOut where
  gateEvents : List GateEv
  sent : BRes
  deriving DecidableEq, Repr

/-- Model of the AsyncLimited B-goroutine.  `granted` is the select
outcome between the `SemB` send and `ctx.Done`: if the send wins, the
handler records the wait, defers the release (which runs on every exit
path of the goroutine, after the `bCh` send), calls Service B (result
`bResult`, which may itself be a cancellation), and sends the result;
if `ctx.Done` wins, it sends `ctx.Err()` and performs no gate
operation. -/
def asyncLimitedBTask (granted : Bool) (ctxErr : SvcErr) (bResult : BRes) :
    BTaskOut :=
  if granted then ⟨[.acquire, .release], bResult⟩
  else ⟨[], .error ctxErr⟩

/-! ### In-flight counters (src/unnamed/part_004 Metrics, part_002 Instrument)

`Metrics.inflight` is a `sync.Map` from endpoint name to an
`*atomic.Int64`; modelled as `String → Option Int` (`none` = no entry).
`Instrument` increments before the handler and decrements via `defer`
after it, for every terminal outcome. -/

/-- The in-flight counter map. -/
abbrev InflightMap := String → Option Int

/-- Model of `Metrics.IncInflight`: `LoadOrStore(endpoint, new zero)`
followed by `Add(1)` on the loaded-or-stored counter. -/
def IncInflight (m : InflightMap) (e : String) : InflightMap :=
  let stored := (m e).getD 0
  fun k => if k = e then some (stored + 1) else m k

/-- Model of `Metrics.DecInflight`: `Add(-1)` only if an entry exists,
otherwise nothing happens. -/
def DecInflight (m : InflightMap) (e : String) : InflightMap :=
  match m e with
  | some v => fun k => if k = e then some (v - 1) else m k
  | none => m

/-- The gauge value observed for an endpoint (an absent entry is not
observed; its counter value reads as zero). -/
def gaugeValue (m : InflightMap) (e : String) : Int := (m e).getD 0

/-- A counter mutation, as fired by `Instrument` invocations. -/
inductive CtrEv where
  | inc (e : String)
  | dec (e : String)

/-- Apply one counter mutation. -/
def applyEv (m : InflightMap) : CtrEv → InflightMap
  | .inc e => IncInflight m e
  | .dec e => DecInflight m e

/-- Apply an interleaved trace of counter mutations. -/
def applyTrace (m : InflightMap) : List CtrEv → InflightMap
  | [] => m
  | ev :: t => applyTrace (applyEv m ev) t

/-- Counter mutations of one complete `Instrument` lifecycle:
`IncInflight` at entry, the deferred `DecInflight` at exit. -/
def instrumentEvents (e : String) : List CtrEv := [.inc e, .dec e]

/-- Pointwise bump of an open-invocation count. -/
def bump (p : String → Nat) (e : String) : String → Nat :=
  fun k => if k = e then p k + 1 else p k

/-- Pointwise drop of an open-invocation count. -/
def lower (p : String → Nat) (e : String) : String → Nat :=
  fun k => if k = e then p k - 1 else p k

/-- Well-formedness of a counter trace: every decrement closes an
invocation that was previously opened by its own increment (`p` counts
currently open invocations per endpoint).  This holds of any
interleaving of `Instrument` lifecycles, since each lifecycle
increments before its deferred decrement. -/
def okTrace (p : String → Nat) : List CtrEv → Bool
  | [] => true
  | .inc e :: t => okTrace (bump p e) t
  | .dec e :: t => if p e = 0 then false else okTrace (lower p e) t

/-- Open-invocation counts after a trace. -/
def runPending (p : String → Nat) : List CtrEv → String → Nat
  | [] => p
  | .inc e :: t => runPending (bump p e) t
  | .dec e :: t => runPending (lower p e) t

/-! ### Configuration and deadlines (src/internal/config/config.go,
Handlers.AsyncTimeout)

`os.Getenv` returns the empty string for an unset variable, so the
environment is `String → String`.  A context deadline is an absolute
instant (`Option Int`, `none` = no deadline). -/

/-- Runtime configuration (`Config` in config.go). -/
structure Config where
  Port : String
  OtelEndpoint : String
  ServiceName : String
  AsyncTimeoutMs : Int
  BConcurrencyLimit : Int
  DisableTraces : Bool
  deriving DecidableEq, Repr

/-- Model of `getEnv`: the variable's value, or the default when empty. -/
def getEnv (env : String → String) (key dflt : String) : String :=
  if env key = "" then dflt else env key

/-- Value of a decimal digit character, if it is one. -/
def digitVal (c : Char) : Option Nat :=
  if '0' ≤ c ∧ c ≤ '9' then some (c.toNat - '0'.toNat) else none

/-- Accumulate a decimal digit run; any non-digit is a parse error. -/
def digitsToNat : List Char → Nat → Option Nat
  | [], acc => some acc
  | c :: cs, acc =>
    match digitVal c with
    | some d => digitsToNat cs (acc * 10 + d)
    | none => none

/-- Model of `strconv.Atoi`: an optional sign followed by at least one
decimal digit; anything else (including the empty string) is an error. -/
def atoi (s : String) : Option Int :=
  match s.toList with
  | [] => none
  | '-' :: cs =>
    if cs = [] then none
    else (digitsToNat cs 0).map (fun n => -(n : Int))
  | '+' :: cs =>
    if cs = [] then none
    else (digitsToNat cs 0).map (fun n => (n : Int))
  | cs => (digitsToNat cs 0).map (fun n => (n : Int))

/-- Model of `getEnvInt`: parse the variable, falling back to the
default when unset or unparsable (`strconv.Atoi` failure). -/
def getEnvInt (env : String → String) (key : String) (dflt : Int) : Int :=
  if env key = "" then dflt
  else
    match atoi (env key) with
    | some n => n
    | none => dflt

/-- Model of `config.Load`. -/
def Load (env : String → String) : Config where
  Port := getEnv env "PORT" "8080"
  OtelEndpoint := getEnv env "OTEL_EXPORTER_OTLP_ENDPOINT" "http://otel-collector:4318"
  ServiceName := getEnv env "OTEL_SERVICE_NAME" "go-goroutine-lab"
  AsyncTimeoutMs := getEnvInt env "ASYNC_TIMEOUT_MS" 600
  BConcurrencyLimit := getEnvInt env "B_CONCURRENCY_LIMIT" 20
  DisableTraces := getEnv env "OTEL_TRACES_EXPORTER" "" = "none"

/-- Whether a context with deadline `dl` is done at instant `t`. -/
def ctxDone (dl : Option Int) (t : Int) : Bool :=
  match dl with
  | none => false
  | some d => decide (d ≤ t)

/-- Model of `context.WithTimeout(parent, d)` called at instant `now`:
the child's deadline is `now + d`, and the parent's earlier deadline
still cancels the child, so the effective expiry is the minimum. -/
def withTimeout (parent : Option Int) (now d : Int) : Option Int :=
  match parent with
  | none => some (now + d)
  | some p => some (min p (now + d))

/-- The shared context built by `Handlers.AsyncTimeout` at invocation
start and passed to both sub-goroutines:
`context.WithTimeout(parent, TimeoutMs milliseconds)`. -/
def asyncTimeoutCtx (parent : Option Int) (now : Int) (cfg : Config) :
    Option Int :=
  withTimeout parent now cfg.AsyncTimeoutMs

/-! ## Theorems -/

/-- C2: in the Sequential strategy, if operation A reports a failure, B is
never invoked and the invocation terminates immediately reporting A's
failure; when A succeeds, B is invoked and the invocation reports B's
outcome (Success when both succeeded). -/
theorem sync_short_circuits_on_A_failure :
    (∀ (eA : SvcErr) (rb : BRes),
      Sync (.error eA) rb = ⟨.errResp 408 "sync" eA, false⟩) ∧
    (∀ (a : ServiceAData) (rb : BRes), (Sync (.ok a) rb).bCalled = true) ∧
    (∀ (a : ServiceAData) (eB : SvcErr),
      (Sync (.ok a) (.error eB)).resp = .errResp 503 "sync" eB) ∧
    (∀ (a : ServiceAData) (b : ServiceBData),
      (Sync (.ok a) (.ok b)).resp = .combined "sync" a b) := by
  refine ⟨fun eA rb => rfl, fun a rb => ?_, fun a eB => rfl, fun a b => rfl⟩
  cases rb <;> rfl

/-- C4: a Service B call whose deadline has not yet expired fails
immediately (with zero elapsed time) exactly when the error draw falls
below the 5% threshold; otherwise the sampled delay lies in
[300ms, 1200ms] and the call returns Success with the "data-from-B"
marker and the sampled delay, unless the deadline elapses before the
delay completes, in which case it reports cancellation. -/
theorem serviceB_profile (u : ℚ) (draw : Nat) (rem : Nat) (tie : Bool)
    (hrem : 0 < rem) :
    (u < pErr → ServiceB u draw (some rem) tie = (.failure, 0)) ∧
    (¬ u < pErr →
      300 ≤ randRange 300 1200 draw ∧ randRange 300 1200 draw ≤ 1200 ∧
      (randRange 300 1200 draw < rem →
        ServiceB u draw (some rem) tie =
          (.success ⟨"data-from-B", randRange 300 1200 draw⟩,
            randRange 300 1200 draw)) ∧
      (rem < randRange 300 1200 draw →
        (ServiceB u draw (some rem) tie).1 = .cancelled)) := by
  have hmod : draw % 901 < 901 := Nat.mod_lt _ (by norm_num)
  constructor
  · intro h
    simp [ServiceB, h]
  · intro h
    refine ⟨by simp [randRange, Intn], by simp [randRange, Intn]; omega,
      fun hlt => ?_, fun hgt => ?_⟩
    · simp [ServiceB, h, hlt]
    · have hnlt : ¬ randRange 300 1200 draw < rem := by omega
      simp [ServiceB, h, hnlt, hgt]

/-- Witness for C4 at concrete inputs: error draw 0 (below 5%) fails
immediately; draw above 5% with sampled delay 300 and 400ms of budget
succeeds. -/
theorem serviceB_profile_witness :
    ServiceB 0 0 (some 400) false = (.failure, 0) ∧
    ServiceB (1/2) 0 (some 400) false =
      (.success ⟨"data-from-B", 300⟩, 300) := by
  have h1 := serviceB_profile 0 0 400 false (by norm_num)
  have h2 := serviceB_profile (1/2) 0 400 false (by norm_num)
  refine ⟨h1.1 (by norm_num [pErr]), ?_⟩
  have h3 := (h2.2 (by norm_num [pErr])).2.2.1
  simpa [randRange, Intn] using h3 (by norm_num [randRange, Intn])

/-- C9: the 5% simulated-error draw in Service B is evaluated before any
deadline check, so a call whose deadline has already expired at entry
still reports Failure when the draw hits, and reports cancellation only
otherwise. -/
theorem serviceB_error_draw_precedes_deadline_check (u : ℚ) (draw : Nat)
    (tie : Bool) :
    (u < pErr → ServiceB u draw (some 0) tie = (.failure, 0)) ∧
    (¬ u < pErr → (ServiceB u draw (some 0) tie).1 = .cancelled) := by
  constructor
  · intro h
    simp [ServiceB, h]
  · intro h
    simp [ServiceB, h, randRange, Intn]

/-- Witness for C9: with the expired deadline `some 0` and the error draw
at 0, Service B reports the simulated failure, not cancellation. -/
theorem serviceB_error_draw_precedes_deadline_check_witness :
    ServiceB 0 0 (some 0) false = (.failure, 0) :=
  (serviceB_error_draw_precedes_deadline_check 0 0 false).1
    (by norm_num [pErr])

/-- C10: a decrement for an endpoint with no in-flight entry leaves the
whole counter map unchanged, while an increment creates the entry
initialized to zero before adding one and touches no other endpoint. -/
theorem inflight_absent_endpoint_behavior (m : InflightMap) (e : String)
    (h : m e = none) :
    DecInflight m e = m ∧
    IncInflight m e e = some (0 + 1) ∧
    (∀ k, k ≠ e → IncInflight m e k = m k) := by
  refine ⟨by simp [DecInflight, h], by simp [IncInflight, h],
    fun k hk => by simp [IncInflight, hk]⟩

/-- Witness for C10 on the empty counter map and the "sync" endpoint. -/
theorem inflight_absent_endpoint_behavior_witness :
    DecInflight (fun _ => none) "sync" = (fun _ => none) ∧
    IncInflight (fun _ => none) "sync" "sync" = some (0 + 1) :=
  ⟨(inflight_absent_endpoint_behavior (fun _ => none) "sync" rfl).1,
    (inflight_absent_endpoint_behavior (fun _ => none) "sync" rfl).2.1⟩

/-- C6: the deadline built by the timeout strategy is the combination of
the caller's deadline and a fixed duration applied at invocation start —
it has fired exactly when the parent deadline has fired or the configured
duration has elapsed, whichever happens first — and the configured
defaults are 600ms for ASYNC_TIMEOUT_MS and 20 for the gate capacity
B_CONCURRENCY_LIMIT. -/
theorem async_timeout_deadline_and_defaults :
    (∀ (parent : Option Int) (now t : Int) (cfg : Config),
      ctxDone (asyncTimeoutCtx parent now cfg) t =
        (ctxDone parent t || decide (now + cfg.AsyncTimeoutMs ≤ t))) ∧
    (Load (fun _ => "")).AsyncTimeoutMs = 600 ∧
    (Load (fun _ => "")).BConcurrencyLimit = 20 ∧
    (Load (fun k => if k = "ASYNC_TIMEOUT_MS" then "250" else "")).AsyncTimeoutMs = 250 := by
  refine ⟨fun parent now t cfg => ?_, rfl, rfl, by decide⟩
  cases parent with
  | none => simp [asyncTimeoutCtx, withTimeout, ctxDone]
  | some p => simp [asyncTimeoutCtx, withTimeout, ctxDone, min_le_iff]

/-- Helper: once both sub-results are present, the loop guard exits and
the remaining events are ignored. -/
theorem fanInLoop_both (ra : ARes) (rb : BRes) (evs : List FanEv) :
    fanInLoop (some ra) (some rb) evs = finalize ra rb := by
  cases evs with
  | nil => rfl
  | cons ev rest => cases ev <;> rfl

/-- C5: in the concurrent strategies, when both sub-results arrive before
the shared deadline fires, the outcome is the post-loop merge: Failure
carrying both sub-results' status when either reported Failure, Success
carrying both payloads when both succeeded. -/
theorem fanin_both_arrived_outcome (ra : ARes) (rb : BRes)
    (rest : List FanEv) :
    fanInLoop none none (.fromA ra :: .fromB rb :: rest) = finalize ra rb ∧
    fanInLoop none none (.fromB rb :: .fromA ra :: rest) = finalize ra rb ∧
    (∀ a b, ra = .ok a → rb = .ok b → finalize ra rb = .merged a b) ∧
    (errOf ra ≠ none ∨ errOf rb ≠ none →
      finalize ra rb = .depFailure (errOf ra) (errOf rb)) := by
  refine ⟨fanInLoop_both ra rb rest, fanInLoop_both ra rb rest,
    fun a b ha hb => by subst ha; subst hb; rfl, fun h => ?_⟩
  rcases ra with eA | a <;> rcases rb with eB | b <;>
    simp [finalize, errOf] at h ⊢

/-- Witness for C5 at concrete inputs: an A success merged with a B
simulated failure yields the failure outcome carrying both statuses. -/
theorem fanin_both_arrived_outcome_witness :
    fanInLoop none none
      [FanEv.fromA (.ok ⟨"data-from-A", 100⟩),
        FanEv.fromB (.error .simulated)] =
      LoopResult.depFailure none (some .simulated) := by
  have h := fanin_both_arrived_outcome (.ok ⟨"data-from-A", 100⟩)
    (.error .simulated) []
  rw [h.1, h.2.2.2 (by decide)]
  rfl

/-- Helper: the post-loop merge never yields the blocked marker. -/
theorem finalize_ne_blocked (ra : ARes) (rb : BRes) :
    finalize ra rb ≠ LoopResult.blocked := by
  rcases ra with eA | a <;> rcases rb with eB | b <;> simp [finalize]

/-- Helper: once a ctx-done event (shared deadline firing) appears in the
event sequence, the fan-in loop cannot end blocked. -/
theorem fanInLoop_done_ne_blocked (evs : List FanEv) :
    ∀ (sA : Option ARes) (sB : Option BRes) (e : SvcErr),
      FanEv.ctxFired e ∈ evs → fanInLoop sA sB evs ≠ LoopResult.blocked := by
  induction evs with
  | nil =>
    intro sA sB e he
    simp at he
  | cons ev rest ih =>
    intro sA sB e he
    rcases sA with _ | ra
    · cases ev with
      | fromA r =>
        have hstep : fanInLoop none sB (FanEv.fromA r :: rest) =
            fanInLoop (some r) sB rest := by
          cases sB <;> rfl
        rw [hstep]
        refine ih (some r) sB e ?_
        rcases List.mem_cons.mp he with h | h
        · simp at h
        · exact h
      | fromB r =>
        have hstep : fanInLoop none sB (FanEv.fromB r :: rest) =
            fanInLoop none (some r) rest := by
          cases sB <;> rfl
        rw [hstep]
        refine ih none (some r) e ?_
        rcases List.mem_cons.mp he with h | h
        · simp at h
        · exact h
      | ctxFired e2 =>
        have hstep : fanInLoop none sB (FanEv.ctxFired e2 :: rest) =
            LoopResult.cancelled e2 := by
          cases sB <;> rfl
        rw [hstep]
        simp
    · rcases sB with _ | rb
      · cases ev with
        | fromA r =>
          rw [show fanInLoop (some ra) none (FanEv.fromA r :: rest) =
              fanInLoop (some r) none rest from rfl]
          refine ih (some r) none e ?_
          rcases List.mem_cons.mp he with h | h
          · simp at h
          · exact h
        | fromB r =>
          rw [show fanInLoop (some ra) none (FanEv.fromB r :: rest) =
              fanInLoop (some ra) (some r) rest from rfl]
          refine ih (some ra) (some r) e ?_
          rcases List.mem_cons.mp he with h | h
          · simp at h
          · exact h
        | ctxFired e2 =>
          rw [show fanInLoop (some ra) none (FanEv.ctxFired e2 :: rest) =
              LoopResult.cancelled e2 from rfl]
          simp
      · rw [fanInLoop_both ra rb (ev :: rest)]
        exact finalize_ne_blocked ra rb

/-- C8: the fan-in merge loop exits as soon as both sub-results have
arrived, ignoring any later events, and once the shared deadline fires
the loop cannot remain blocked, so every invocation terminates in
exactly one of the merged / dependency-failure / cancelled outcomes even
if one sub-task never reports. -/
theorem fanin_merge_terminates :
    (∀ (ra : ARes) (rb : BRes) (evs : List FanEv),
      fanInLoop (some ra) (some rb) evs = finalize ra rb) ∧
    (∀ (evs : List FanEv) (sA : Option ARes) (sB : Option BRes)
      (e : SvcErr), FanEv.ctxFired e ∈ evs →
      fanInLoop sA sB evs ≠ LoopResult.blocked) :=
  ⟨fun ra rb evs => fanInLoop_both ra rb evs,
    fun evs sA sB e he => fanInLoop_done_ne_blocked evs sA sB e he⟩

/-- Witness for C8: with only the deadline event ever arriving (neither
sub-task reports), the loop still terminates, as cancelled. -/
theorem fanin_merge_terminates_witness :
    fanInLoop none none [FanEv.ctxFired .ctxCanceled] ≠
      LoopResult.blocked :=
  fanin_merge_terminates.2 [FanEv.ctxFired .ctxCanceled] none none
    .ctxCanceled (by decide)

/-- C3 counterexample: in the bounded strategy, when the deadline fires
while waiting for gate admission, the cancellation error is sent through
the B result channel; if the merge loop consumes it after A's success,
the handler responds 503 — the very status it uses for a simulated
dependency failure — so this cancellation is not distinguished from a
DependencyFailure in the caller-visible result. -/
theorem cancellation_via_b_channel_maps_to_503 :
    SvcErr.isCtx .ctxDeadlineExceeded = true ∧
    statusOf (fanInLoop none none
      [FanEv.fromA (.ok ⟨"data-from-A", 100⟩),
        FanEv.fromB (.error .ctxDeadlineExceeded)]) = some 503 ∧
    statusOf (fanInLoop none none
      [FanEv.fromA (.ok ⟨"data-from-A", 100⟩),
        FanEv.fromB (.error .simulated)]) = some 503 :=
  ⟨rfl, rfl, rfl⟩

/-- C3 (amended): a cancellation observed by the merge loop through its
own ctx-done select branch is reported with status 408, distinguishable
from the 503 used for dependency failures; but a cancellation error
delivered through the B result channel (deadline firing during gate
wait in the bounded strategy) that is merged after A's success is
reported with status 503, indistinguishable from a dependency
failure. -/
theorem cancellation_distinguishability_amended :
    (∀ (sB : Option BRes) (e : SvcErr) (evs : List FanEv),
      statusOf (fanInLoop none sB (FanEv.ctxFired e :: evs)) = some 408) ∧
    (∀ (a : ServiceAData) (e : SvcErr), e.isCtx = true →
      statusOf (fanInLoop none none
        [FanEv.fromA (.ok a), FanEv.fromB (.error e)]) = some 503) := by
  constructor
  · intro sB e evs
    cases sB <;> rfl
  · intro a e he
    rfl

/-- Witness for C3 (amended): the channel-delivered cancellation at a
concrete input responds 503 while the loop-observed one responds 408. -/
theorem cancellation_distinguishability_amended_witness :
    statusOf (fanInLoop none none
      [FanEv.fromA (.ok ⟨"data-from-A", 80⟩),
        FanEv.fromB (.error .ctxCanceled)]) = some 503 ∧
    statusOf (fanInLoop none none
      [FanEv.ctxFired .ctxCanceled]) = some 408 :=
  ⟨cancellation_distinguishability_amended.2 ⟨"data-from-A", 80⟩
      .ctxCanceled (by decide),
    cancellation_distinguishability_amended.1 none .ctxCanceled []⟩

/-- Helper: running the gate from an in-range occupancy keeps occupancy
in range. -/
theorem gateRun_bounds (cap : Nat) (t : List GateEv) :
    ∀ (occ : Int), 0 ≤ occ → occ ≤ (cap : Int) →
      ∀ occ2, gateRun cap occ t = some occ2 →
        0 ≤ occ2 ∧ occ2 ≤ (cap : Int) := by
  induction t with
  | nil =>
    intro occ h0 h1 occ2 h
    simp [gateRun] at h
    omega
  | cons ev rest ih =>
    intro occ h0 h1 occ2 h
    cases ev with
    | acquire =>
      rcases hstep : gateStep cap occ .acquire with _ | occ3
      · simp [gateRun, hstep] at h
      · simp [gateRun, hstep] at h
        simp [gateStep] at hstep
        rcases hstep with ⟨hlt, hocc3⟩
        exact ih occ3 (by omega) (by omega) occ2 h
    | release =>
      rcases hstep : gateStep cap occ .release with _ | occ3
      · simp [gateRun, hstep] at h
      · simp [gateRun, hstep] at h
        simp [gateStep] at hstep
        rcases hstep with ⟨hpos, hocc3⟩
        exact ih occ3 (by omega) (by omega) occ2 h

/-- C1: for every realizable sequence of gate operations the occupancy
stays within 0..capacity, and the bounded-strategy B-task pairs every
granted acquire with exactly one later release on every exit path
(including cancellation while B executes), while a denied acquire
produces no gate operation at all. -/
theorem gate_occupancy_and_release_pairing :
    (∀ (cap : Nat) (t : List GateEv) (occ2 : Int),
      gateRun cap 0 t = some occ2 → 0 ≤ occ2 ∧ occ2 ≤ (cap : Int)) ∧
    (∀ (granted : Bool) (ce : SvcErr) (br : BRes),
      ((asyncLimitedBTask granted ce br).gateEvents.count GateEv.acquire =
        (asyncLimitedBTask granted ce br).gateEvents.count GateEv.release) ∧
      (granted = true →
        (asyncLimitedBTask granted ce br).gateEvents =
          [.acquire, .release]) ∧
      (granted = false →
        (asyncLimitedBTask granted ce br).gateEvents = [])) := by
  constructor
  · intro cap t occ2 h
    exact gateRun_bounds cap t 0 le_rfl (by exact_mod_cast Nat.zero_le cap) occ2 h
  · intro granted ce br
    cases granted <;> simp [asyncLimitedBTask]

/-- Witness for C1: capacity 2, trace acquire-acquire-release, final
occupancy 1 lies within bounds. -/
theorem gate_occupancy_and_release_pairing_witness :
    (0 : Int) ≤ 1 ∧ (1 : Int) ≤ (2 : Nat) :=
  gate_occupancy_and_release_pairing.1 2
    [.acquire, .acquire, .release] 1 (by decide)

/-- Helper: under a well-formed interleaving of counter mutations, the
gauge of every endpoint tracks the number of currently open invocations
for that endpoint. -/
theorem applyTrace_gauge (t : List CtrEv) :
    ∀ (p : String → Nat) (m : InflightMap),
      (∀ k, gaugeValue m k = (p k : Int)) →
      okTrace p t = true →
      ∀ k, gaugeValue (applyTrace m t) k = (runPending p t k : Int) := by
  induction t with
  | nil =>
    intro p m hpm hok k
    simpa [applyTrace, runPending] using hpm k
  | cons ev rest ih =>
    intro p m hpm hok k
    cases ev with
    | inc e =>
      refine ih (bump p e) (IncInflight m e) ?_ ?_ k
      · intro k2
        by_cases hk : k2 = e
        · subst hk
          have := hpm k2
          simp [gaugeValue, IncInflight, bump] at this ⊢
          omega
        · simp [gaugeValue, IncInflight, bump, hk]
          exact hpm k2
      · simpa [okTrace] using hok
    | dec e =>
      have hpe : p e ≠ 0 := by
        intro h0
        simp [okTrace, h0] at hok
      have hok2 : okTrace (lower p e) rest = true := by
        simp [okTrace, hpe] at hok
        exact hok
      refine ih (lower p e) (DecInflight m e) ?_ hok2 k
      intro k2
      have hme := hpm e
      rcases hmev : m e with _ | v
      · exfalso
        apply hpe
        simp [gaugeValue, hmev] at hme
        omega
      · by_cases hk : k2 = e
        · subst hk
          simp [gaugeValue, hmev] at hme
          simp [gaugeValue, DecInflight, hmev, lower]
          omega
        · simp [gaugeValue, DecInflight, hmev, lower, hk]
          exact hpm k2

/-- C7: one complete Instrument lifecycle increments the endpoint's
in-flight gauge exactly once on start and decrements it exactly once on
termination, returning it to its pre-invocation value; and under any
interleaving of lifecycles in which every decrement closes a previously
opened invocation, each gauge equals the number of open invocations and
in particular never goes negative. -/
theorem inflight_lifecycle_invariant :
    (∀ (m : InflightMap) (e : String),
      gaugeValue (applyTrace m (instrumentEvents e)) e = gaugeValue m e) ∧
    (∀ (t : List CtrEv) (p : String → Nat) (m : InflightMap),
      (∀ k, gaugeValue m k = (p k : Int)) → okTrace p t = true →
      ∀ k, gaugeValue (applyTrace m t) k = (runPending p t k : Int) ∧
        0 ≤ gaugeValue (applyTrace m t) k) := by
  constructor
  · intro m e
    simp [applyTrace, applyEv, instrumentEvents, IncInflight, DecInflight,
      gaugeValue]
  · intro t p m hpm hok k
    have h := applyTrace_gauge t p m hpm hok k
    exact ⟨h, by rw [h]; exact Int.natCast_nonneg _⟩

/-- Witness for C7: an interleaving of two lifecycles for the "sync"
endpoint with one still open, starting from the empty map. -/
theorem inflight_lifecycle_invariant_witness :
    gaugeValue (applyTrace (fun _ => none)
        [CtrEv.inc "sync", CtrEv.inc "sync", CtrEv.dec "sync"]) "sync" =
      ((runPending (fun _ => 0)
        [CtrEv.inc "sync", CtrEv.inc "sync", CtrEv.dec "sync"]) "sync" : Int) ∧
    0 ≤ gaugeValue (applyTrace (fun _ => none)
        [CtrEv.inc "sync", CtrEv.inc "sync", CtrEv.dec "sync"]) "sync" :=
  inflight_lifecycle_invariant.2
    [CtrEv.inc "sync", CtrEv.inc "sync", CtrEv.dec "sync"]
    (fun _ => 0) (fun _ => none) (fun k => by simp [gaugeValue])
    (by decide) "sync"

end GoRoutineStress
